import Mathlib

/-!
Verification of the image compositing editor (App.tsx / Editor.tsx).

The source is a small React application: a background image, a list of
foreground layers, pointer-driven move / rotate / resize gestures
(Editor.tsx, handlePointerDown / handlePointerMove), and a canvas export
routine (App.tsx, handleDownload).  All the geometric code is embedded
below over the exact real numbers; JavaScript numbers are modelled by
real numbers, Math.atan2 by the argument of a complex number,
Math.hypot by the square root of the sum of squares, and Partial layer
updates by a record of optional fields.
-/

noncomputable section

namespace ImageCp

/-- A 2D point / vector, components in canvas-local coordinates. -/
abbrev Point := ℝ × ℝ

/-- The Layer record of types.ts / App.tsx: a positioned, transformable image. -/
structure Layer where
  id : String
  src : String
  name : String
  x : ℝ
  y : ℝ
  scale : ℝ
  rotation : ℝ
  width : ℝ
  height : ℝ
  visible : Bool

/-- A `Partial<Layer>` update object as emitted by the gesture handlers and
applied by `handleUpdateLayer` via object spread: fields that are absent
(`none`) are left unchanged by the merge. -/
structure LayerUpdate where
  x : Option ℝ := none
  y : Option ℝ := none
  scale : Option ℝ := none
  rotation : Option ℝ := none
  width : Option ℝ := none
  height : Option ℝ := none
  visible : Option Bool := none

/-- The object spread `{ ...l, ...updates }` of App.tsx handleUpdateLayer. -/
def applyUpdate (u : LayerUpdate) (l : Layer) : Layer :=
  { l with
    x := u.x.getD l.x
    y := u.y.getD l.y
    scale := u.scale.getD l.scale
    rotation := u.rotation.getD l.rotation
    width := u.width.getD l.width
    height := u.height.getD l.height
    visible := u.visible.getD l.visible }

/-- Editor.tsx drag gesture modes. -/
inductive DragMode
  | move
  | resize
  | rotate
deriving DecidableEq

/-- Editor.tsx resize handles (corner being dragged). -/
inductive ResizeHandle
  | nw
  | ne
  | sw
  | se
deriving DecidableEq

/-- The snapshot of the layer state taken at the start of the drag. -/
structure StartLayerState where
  x : ℝ
  y : ℝ
  scale : ℝ
  rotation : ℝ
  width : ℝ
  height : ℝ

/-- Editor.tsx DragState. Optional fields model the optional TS fields;
for `startDist` the source relies on JS truthiness (`dragState.startDist`),
so a recorded value of `0` behaves like an absent one (see
handlePointerMove). -/
structure DragState where
  mode : DragMode
  handle : Option ResizeHandle
  startX : ℝ
  startY : ℝ
  startLayerState : StartLayerState
  centerWorldStart : Point
  pivotWorld : Option Point := none
  startDist : Option ℝ := none
  startAngle : Option ℝ := none

/-- Editor.tsx toRad: degrees to radians. -/
def toRad (deg : ℝ) : ℝ := deg * Real.pi / 180

/-- Math.atan2 y x, modelled as the argument of the complex number x + y i
(both give the angle of the vector (x, y) in the interval (-pi, pi]). -/
def atan2 (y x : ℝ) : ℝ := Complex.arg (x + y * Complex.I)

/-- Math.hypot a b. -/
def hypot (a b : ℝ) : ℝ := Real.sqrt (a ^ 2 + b ^ 2)

/-- The opposite corner of the dragged handle, in unrotated local
coordinates relative to the layer top-left (the switch statement of
handlePointerDown). -/
def pivotLocal (h : ResizeHandle) (width height : ℝ) : Point :=
  match h with
  | .nw => (width, height)
  | .ne => (0, height)
  | .sw => (width, 0)
  | .se => (0, 0)

/-- The pivot (opposite corner) world position computed at resize gesture
start in handlePointerDown: the opposite corner offset from the center in
unscaled local coordinates, multiplied by the scale, rotated by the
rotation, added to the visual center. -/
def computePivotWorld (l : Layer) (h : ResizeHandle) : Point :=
  let cx := l.x + l.width / 2
  let cy := l.y + l.height / 2
  let pl := pivotLocal h l.width l.height
  let dx := (pl.1 - l.width / 2) * l.scale
  let dy := (pl.2 - l.height / 2) * l.scale
  let rad := toRad l.rotation
  (cx + (dx * Real.cos rad - dy * Real.sin rad),
   cy + (dx * Real.sin rad + dy * Real.cos rad))

/-- Editor.tsx handlePointerDown: build the DragState for a gesture on
layer `l` starting at canvas-local pointer position (mouseX, mouseY). -/
def handlePointerDown (l : Layer) (mode : DragMode) (handle : Option ResizeHandle)
    (mouseX mouseY : ℝ) : DragState :=
  let cx := l.x + l.width / 2
  let cy := l.y + l.height / 2
  let base : DragState :=
    { mode := mode
      handle := handle
      startX := mouseX
      startY := mouseY
      startLayerState :=
        { x := l.x, y := l.y, scale := l.scale, rotation := l.rotation,
          width := l.width, height := l.height }
      centerWorldStart := (cx, cy) }
  match mode, handle with
  | .resize, some h =>
      let pw := computePivotWorld l h
      { base with
          pivotWorld := some pw
          startDist := some (hypot (mouseX - pw.1) (mouseY - pw.2)) }
  | .rotate, _ =>
      { base with startAngle := some (atan2 (mouseY - cy) (mouseX - cx)) }
  | _, _ => base

/-- Editor.tsx handlePointerMove: given the current drag state and the
selected layer id, produce the partial layer update (if any) for the
pointer at canvas-local position (currX, currY).  Returning `none` models
the handler returning without calling onUpdateLayer. -/
def handlePointerMove (dragState : Option DragState) (selectedLayerId : Option String)
    (currX currY : ℝ) : Option (String × LayerUpdate) :=
  match dragState, selectedLayerId with
  | some ds, some sel =>
    match ds.mode with
    | .move =>
        some (sel,
          { x := some (ds.startLayerState.x + (currX - ds.startX))
            y := some (ds.startLayerState.y + (currY - ds.startY)) })
    | .rotate =>
        match ds.startAngle with
        | some sa =>
            let currAngle := atan2 (currY - ds.centerWorldStart.2) (currX - ds.centerWorldStart.1)
            let degDelta := (currAngle - sa) * 180 / Real.pi
            some (sel, { rotation := some (ds.startLayerState.rotation + degDelta) })
        | none => none
    | .resize =>
        match ds.pivotWorld, ds.startDist with
        | some pw, some sd =>
            if sd = 0 then none
            else
              let currDist := hypot (currX - pw.1) (currY - pw.2)
              if currDist < 1 then none
              else
                let newScale := max 0.05 (ds.startLayerState.scale * (currDist / sd))
                let pivotToCenterX := ds.centerWorldStart.1 - pw.1
                let pivotToCenterY := ds.centerWorldStart.2 - pw.2
                let newCenterX := pw.1 + pivotToCenterX * (newScale / ds.startLayerState.scale)
                let newCenterY := pw.2 + pivotToCenterY * (newScale / ds.startLayerState.scale)
                let newX := newCenterX - ds.startLayerState.width / 2
                let newY := newCenterY - ds.startLayerState.height / 2
                some (sel, { x := some newX, y := some newY, scale := some newScale })
        | _, _ => none
  | _, _ => none

/-- The whole editor state of App.tsx that the verified operations touch. -/
structure EditorState where
  backgroundSrc : Option String
  layers : List Layer
  selectedLayerId : Option String

/-- App.tsx handleUpdateLayer. -/
def handleUpdateLayer (id : String) (updates : LayerUpdate) (st : EditorState) : EditorState :=
  { st with layers := st.layers.map fun l => if l.id = id then applyUpdate updates l else l }

/-- App.tsx handleDeleteLayer. -/
def handleDeleteLayer (id : String) (st : EditorState) : EditorState :=
  { st with
      layers := st.layers.filter fun l => l.id != id
      selectedLayerId := if st.selectedLayerId = some id then none else st.selectedLayerId }

/-- App.tsx handleToggleVisibility. -/
def handleToggleVisibility (id : String) (st : EditorState) : EditorState :=
  { st with layers := st.layers.map fun l => if l.id = id then { l with visible := !l.visible } else l }

/-- A decoded image (HTMLImageElement) with its natural pixel dimensions. -/
structure Image where
  naturalWidth : ℝ
  naturalHeight : ℝ

/-- A 2D transform, the current transformation matrix of a canvas context
applied as a map on points. -/
abbrev Transform := Point → Point

/-- ctx.translate. -/
def translateT (tx ty : ℝ) : Transform := fun p => (p.1 + tx, p.2 + ty)

/-- ctx.rotate by `rad` radians. -/
def rotateT (rad : ℝ) : Transform :=
  fun p => (p.1 * Real.cos rad - p.2 * Real.sin rad,
            p.1 * Real.sin rad + p.2 * Real.cos rad)

/-- ctx.scale s s (uniform). -/
def scaleT (s : ℝ) : Transform := fun p => (s * p.1, s * p.2)

/-- The state of a CanvasRenderingContext2D that the export routine uses:
the current transform and the save/restore stack. -/
structure Ctx where
  transform : Transform
  stack : List Transform

/-- ctx.save. -/
def Ctx.save (c : Ctx) : Ctx := { c with stack := c.transform :: c.stack }

/-- ctx.restore. -/
def Ctx.restore (c : Ctx) : Ctx :=
  match c.stack with
  | [] => c
  | t :: ts => { transform := t, stack := ts }

/-- Right-composing a transform onto the current transform, as
ctx.translate / ctx.rotate / ctx.scale do. -/
def Ctx.compose (c : Ctx) (t : Transform) : Ctx := { c with transform := c.transform ∘ t }

/-- A fresh context: identity transform, empty stack. -/
def initialCtx : Ctx := { transform := id, stack := [] }

/-- One recorded ctx.drawImage call: the image, the destination rectangle
in the local frame, and the context transform in effect when drawn. -/
structure DrawOp where
  img : Image
  dx : ℝ
  dy : ℝ
  dw : ℝ
  dh : ℝ
  transform : Transform

/-- World position of the content point `p` (offset from the destination
rectangle top-left, in local units) of a recorded draw call. -/
def DrawOp.worldPoint (op : DrawOp) (p : Point) : Point :=
  op.transform (op.dx + p.1, op.dy + p.2)

/-- The per-layer body of the export loop of App.tsx handleDownload:
save; translate to the layer visual center; rotate by the rotation in
radians; scale by the layer scale; draw the image at its intrinsic size
centered on the origin; restore. -/
def drawLayer (c : Ctx) (l : Layer) (img : Image) : Ctx × DrawOp :=
  let cx := l.x + l.width / 2
  let cy := l.y + l.height / 2
  let c1 := (((c.save.compose (translateT cx cy)).compose
      (rotateT (toRad l.rotation))).compose (scaleT l.scale))
  (c1.restore,
   { img := img, dx := -(l.width / 2), dy := -(l.height / 2),
     dw := l.width, dh := l.height, transform := c1.transform })

/-- The layer loop of App.tsx handleDownload: layers in list order;
invisible layers are skipped; a layer whose image fails to decode is
skipped (the catch logs and continues). -/
def drawLayers (decode : String → Option Image) (c : Ctx) : List Layer → Ctx × List DrawOp
  | [] => (c, [])
  | l :: ls =>
      if l.visible then
        match decode l.src with
        | none => drawLayers decode c ls
        | some img =>
            let step := drawLayer c l img
            let rest := drawLayers decode step.1 ls
            (rest.1, step.2 :: rest.2)
      else drawLayers decode c ls

/-- The result of a successful export: canvas pixel dimensions, the
sequence of draw calls (background first), and the download file name. -/
structure ExportResult where
  width : ℝ
  height : ℝ
  ops : List DrawOp
  filename : String

/-- App.tsx handleDownload.  `canvasPresent` models `canvasRef.current`
being non-null, `ctxAvailable` models `canvas.getContext` returning a
context, `canvasW`/`canvasH` are the measured offsetWidth/offsetHeight of
the editor canvas element, and `decode` models loadImage (a `none` result
is a load/decode failure).  A `none` result means no file is produced. -/
def handleDownload (canvasPresent ctxAvailable : Bool) (canvasW canvasH : ℝ)
    (decode : String → Option Image) (st : EditorState) : Option ExportResult :=
  if canvasPresent = false ∨ st.backgroundSrc = none then none
  else if ctxAvailable = false then none
  else
    match st.backgroundSrc with
    | none => none
    | some bgSrc =>
        match decode bgSrc with
        | none => none
        | some bg =>
            let bgOp : DrawOp :=
              { img := bg, dx := 0, dy := 0, dw := canvasW, dh := canvasH, transform := id }
            some { width := canvasW, height := canvasH,
                   ops := bgOp :: (drawLayers decode initialCtx st.layers).2,
                   filename := "comfyui-composite.png" }

/-- The editor canvas element dimensions from Editor.tsx: the background
natural size when a background is present, otherwise the 800 by 600
placeholder. -/
def editorCanvasSize (backgroundSrc : Option String) (bgSize : Point) : Point :=
  if backgroundSrc.isSome then bgSize else (800, 600)

/-- The Editor.tsx background-load effect: once the background image has
loaded, bgSize is its natural size. -/
def bgSizeAfterLoad (img : Image) : Point := (img.naturalWidth, img.naturalHeight)

/-- World position of a content point of a layer under the live-preview
convention of Editor.tsx: an element positioned at left = x, top = y with
size width by height, CSS transform rotate(rotation) scale(scale) and
transform-origin at the element center. -/
def previewPoint (l : Layer) (p : Point) : Point :=
  let ox := l.width / 2
  let oy := l.height / 2
  let q := rotateT (toRad l.rotation) (scaleT l.scale (p.1 - ox, p.2 - oy))
  (l.x + ox + q.1, l.y + oy + q.2)

/-- A concrete 2 by 2 layer at the origin, used to instantiate theorems. -/
def lw : Layer := ⟨"a", "s", "n", 0, 0, 1, 0, 2, 2, true⟩

/-- The update emitted by a concrete resize move on `lw`. -/
def updw : LayerUpdate := ⟨some 1, some 1, some 2, none, none, none, none⟩

/-- A concrete resize drag state: pivot (0,0), start distance 5. -/
def dsw : DragState := ⟨.resize, some .se, 3, 4, ⟨0, 0, 1, 0, 2, 2⟩, (1, 1), some (0, 0), some 5, none⟩

/-- A concrete 2 by 2 layer whose visual center is the origin. -/
def lc : Layer := ⟨"a", "s", "n", -1, -1, 1, 0, 2, 2, true⟩

/-- The layer of the documented scenario: 200 by 100 at (50,50). -/
def L0 : Layer := ⟨"L", "fg", "img", 50, 50, 1, 0, 200, 100, true⟩

/-- A concrete editor state holding `lw`, with it selected. -/
def stw : EditorState := ⟨some "bg", [lw], some "a"⟩

/-- A decode environment in which every source decodes. -/
def decw : String → Option Image := fun _ => some ⟨800, 600⟩

/-- A layer whose source fails to decode under `decw10`. -/
def lbad : Layer := ⟨"b", "bad", "nb", 0, 0, 1, 0, 2, 2, true⟩

/-- A decode environment in which exactly the source "bad" fails. -/
def decw10 : String → Option Image := fun s => if s = "bad" then none else some ⟨800, 600⟩

/-! ## Helper lemmas -/

/-- atan2 recovers the angle of a point given in polar form, for angles in
the principal interval. -/
theorem atan2_polar (r θ : ℝ) (hr : 0 < r) (hθ : θ ∈ Set.Ioc (-Real.pi) Real.pi) :
    atan2 (r * Real.sin θ) (r * Real.cos θ) = θ := by
  unfold atan2
  have hrw : ((r * Real.cos θ : ℝ) : ℂ) + ((r * Real.sin θ : ℝ) : ℂ) * Complex.I
      = (r : ℂ) * (Complex.cos θ + Complex.sin θ * Complex.I) := by
    push_cast [Complex.ofReal_cos, Complex.ofReal_sin]
    ring
  rw [hrw, Complex.arg_mul_cos_add_sin_mul_I hr hθ]

/-- Restoring right after a save-transform sequence returns the context
unchanged. -/
theorem drawLayer_fst (c : Ctx) (l : Layer) (img : Image) : (drawLayer c l img).1 = c := rfl

/-! ## C7: move gesture -/

/-- Claim C7: during a move gesture every pointer-move sets x to the
snapshot x plus the pointer x displacement and y to the snapshot y plus
the pointer y displacement, independently; the emitted update carries no
other field, so rotation, scale, width, height and visibility are
unchanged by applying it; and a move update with zero net pointer
displacement emits exactly the snapshot position, leaving the layer
unchanged. -/
theorem move_update_exact (l : Layer) (i : String) (sx sy cx cy : ℝ) :
    handlePointerMove (some (handlePointerDown l .move none sx sy)) (some i) cx cy
      = some (i, { x := some (l.x + (cx - sx)), y := some (l.y + (cy - sy)) }) ∧
    (applyUpdate { x := some (l.x + (cx - sx)), y := some (l.y + (cy - sy)) } l).rotation
      = l.rotation ∧
    (applyUpdate { x := some (l.x + (cx - sx)), y := some (l.y + (cy - sy)) } l).scale
      = l.scale ∧
    (applyUpdate { x := some (l.x + (cx - sx)), y := some (l.y + (cy - sy)) } l).width
      = l.width ∧
    (applyUpdate { x := some (l.x + (cx - sx)), y := some (l.y + (cy - sy)) } l).height
      = l.height ∧
    (applyUpdate { x := some (l.x + (cx - sx)), y := some (l.y + (cy - sy)) } l).visible
      = l.visible ∧
    handlePointerMove (some (handlePointerDown l .move none sx sy)) (some i) sx sy
      = some (i, { x := some l.x, y := some l.y }) ∧
    applyUpdate { x := some l.x, y := some l.y } l = l := by
  refine ⟨rfl, rfl, rfl, rfl, rfl, rfl, ?_, ?_⟩
  · simp [handlePointerMove, handlePointerDown]
  · simp [applyUpdate]

/-! ## C6: resize guard and scale floor -/

/-- Claim C6: on a resize update, if the current pivot-to-pointer distance
is below 1 the update is ignored entirely; otherwise the emitted scale is
the snapshot scale times the distance ratio floored at 0.05, so every
emitted scale is at least 0.05; and whenever an update is emitted the
recorded start distance is nonzero (a zero start distance is falsy and
skips the resize branch), so the division by the start distance never has
a degenerate divisor. -/
theorem resize_guard_and_scale_floor (ds : DragState) (pw : Point) (sd : ℝ) (sel : String)
    (cx cy : ℝ) (hm : ds.mode = .resize) (hp : ds.pivotWorld = some pw)
    (hs : ds.startDist = some sd) :
    (hypot (cx - pw.1) (cy - pw.2) < 1 → handlePointerMove (some ds) (some sel) cx cy = none) ∧
    (∀ upd, handlePointerMove (some ds) (some sel) cx cy = some (sel, upd) →
      sd ≠ 0 ∧ 1 ≤ hypot (cx - pw.1) (cy - pw.2) ∧
      upd.scale = some (max 0.05 (ds.startLayerState.scale * (hypot (cx - pw.1) (cy - pw.2) / sd))) ∧
      ∀ s, upd.scale = some s → 0.05 ≤ s) := by
  constructor
  · intro hlt
    by_cases hsd : sd = 0
    · simp [handlePointerMove, hm, hp, hs, hsd]
    · simp [handlePointerMove, hm, hp, hs, hsd, hlt]
  · intro upd hupd
    by_cases hsd : sd = 0
    · simp [handlePointerMove, hm, hp, hs, hsd] at hupd
    · by_cases hlt : hypot (cx - pw.1) (cy - pw.2) < 1
      · simp [handlePointerMove, hm, hp, hs, hsd, hlt] at hupd
      · simp only [handlePointerMove, hm, hp, hs, if_neg hsd, if_neg hlt] at hupd
        obtain ⟨-, rfl⟩ := hupd
        refine ⟨hsd, not_lt.mp hlt, rfl, ?_⟩
        intro s hsc
        obtain rfl : max 0.05 (ds.startLayerState.scale * (hypot (cx - pw.1) (cy - pw.2) / sd)) = s :=
          Option.some.inj hsc
        exact le_max_left _ _

/-- Witness for C6 at a concrete drag state and pointer position. -/
theorem resize_guard_and_scale_floor_witness :
    dsw.mode = .resize ∧ dsw.pivotWorld = some (0, 0) ∧ dsw.startDist = some 5 ∧
    ((hypot ((6 : ℝ) - (0 : Point).1) ((8 : ℝ) - (0 : Point).2) < 1 →
        handlePointerMove (some dsw) (some "a") 6 8 = none) ∧
      (∀ upd, handlePointerMove (some dsw) (some "a") 6 8 = some ("a", upd) →
        (5 : ℝ) ≠ 0 ∧ 1 ≤ hypot ((6 : ℝ) - (0 : Point).1) ((8 : ℝ) - (0 : Point).2) ∧
        upd.scale = some (max 0.05 (dsw.startLayerState.scale *
          (hypot ((6 : ℝ) - (0 : Point).1) ((8 : ℝ) - (0 : Point).2) / 5))) ∧
        ∀ s, upd.scale = some s → 0.05 ≤ s)) :=
  ⟨rfl, rfl, rfl, resize_guard_and_scale_floor dsw (0, 0) 5 "a" 6 8 rfl rfl rfl⟩

/-! ## C9: deletion mid-gesture -/

/-- Updating a list in which no layer carries the targeted id leaves every
layer unchanged. -/
theorem map_update_filter (i : String) (u : LayerUpdate) (ls : List Layer) :
    (ls.filter fun l => l.id != i).map (fun l => if l.id = i then applyUpdate u l else l)
      = ls.filter fun l => l.id != i := by
  induction ls with
  | nil => rfl
  | cons a as ih =>
      by_cases h : a.id = i <;> simp [List.filter_cons, h, ih]

/-- Claim C9: deleting the selected layer clears the selection; a
pointer-move arriving with no selection produces no update (and no
error); and an update addressed to the deleted id leaves the remaining
layer list unchanged. -/
theorem delete_mid_gesture_safe (st : EditorState) (i : String) (ds : DragState)
    (cx cy : ℝ) (u : LayerUpdate) (hsel : st.selectedLayerId = some i) :
    (handleDeleteLayer i st).selectedLayerId = none ∧
    handlePointerMove (some ds) (handleDeleteLayer i st).selectedLayerId cx cy = none ∧
    (handleUpdateLayer i u (handleDeleteLayer i st)).layers = (handleDeleteLayer i st).layers := by
  have h1 : (handleDeleteLayer i st).selectedLayerId = none := by
    simp [handleDeleteLayer, hsel]
  refine ⟨h1, ?_, ?_⟩
  · rw [h1]
    rfl
  · simp only [handleUpdateLayer, handleDeleteLayer]
    exact map_update_filter i u st.layers

/-- Witness for C9 at a concrete state with the deleted layer selected. -/
theorem delete_mid_gesture_safe_witness :
    stw.selectedLayerId = some "a" ∧
    ((handleDeleteLayer "a" stw).selectedLayerId = none ∧
      handlePointerMove (some dsw) (handleDeleteLayer "a" stw).selectedLayerId 1 2 = none ∧
      (handleUpdateLayer "a" updw (handleDeleteLayer "a" stw)).layers
        = (handleDeleteLayer "a" stw).layers) :=
  ⟨rfl, delete_mid_gesture_safe stw "a" dsw 1 2 updw rfl⟩

/-! ## C5: export dimensions -/

/-- Claim C5: whenever an export runs (a background source is present, the
canvas element exists and a drawing context is available), the produced
raster has exactly the natural width and height of the background image,
because the canvas element is sized to the natural size of the loaded
background and the export canvas copies the measured size of the element. -/
theorem export_dimensions_match_background (st : EditorState) (s : String) (bg : Image)
    (decode : String → Option Image) (hbg : st.backgroundSrc = some s)
    (hdec : decode s = some bg) :
    (handleDownload true true (editorCanvasSize st.backgroundSrc (bgSizeAfterLoad bg)).1
        (editorCanvasSize st.backgroundSrc (bgSizeAfterLoad bg)).2 decode st).map
        (fun r => (r.width, r.height))
      = some (bg.naturalWidth, bg.naturalHeight) := by
  simp [handleDownload, hbg, hdec, editorCanvasSize, bgSizeAfterLoad]

/-- Witness for C5 at a concrete state and decode environment. -/
theorem export_dimensions_match_background_witness :
    stw.backgroundSrc = some "bg" ∧ decw "bg" = some ⟨800, 600⟩ ∧
    (handleDownload true true (editorCanvasSize stw.backgroundSrc (bgSizeAfterLoad ⟨800, 600⟩)).1
        (editorCanvasSize stw.backgroundSrc (bgSizeAfterLoad ⟨800, 600⟩)).2 decw stw).map
        (fun r => (r.width, r.height))
      = some ((Image.mk 800 600).naturalWidth, (Image.mk 800 600).naturalHeight) :=
  ⟨rfl, rfl, export_dimensions_match_background stw "bg" ⟨800, 600⟩ decw rfl rfl⟩

/-! ## C8: toggling visibility off versus deleting -/

/-- Toggling the visibility of every layer with the given id off (they
were all visible) makes the export loop draw exactly what it draws after
deleting those layers. -/
theorem drawLayers_toggle_eq_delete (decode : String → Option Image) (i : String) (c : Ctx)
    (ls : List Layer) (hvis : ∀ l ∈ ls, l.id = i → l.visible = true) :
    drawLayers decode c (ls.map fun l => if l.id = i then { l with visible := !l.visible } else l)
      = drawLayers decode c (ls.filter fun l => l.id != i) := by
  induction ls generalizing c with
  | nil => rfl
  | cons a as ih =>
      have hvas : ∀ l ∈ as, l.id = i → l.visible = true :=
        fun l hl => hvis l (List.mem_cons_of_mem _ hl)
      have ihc := fun c => ih c hvas
      by_cases h : a.id = i
      · have hv : a.visible = true := hvis a (List.mem_cons_self a as) h
        simp [drawLayers, List.filter_cons, h, hv, ihc]
      · by_cases hv : a.visible = true
        · cases hdec : decode a.src with
          | none => simp [drawLayers, List.filter_cons, h, hv, hdec, ihc]
          | some img =>
              simp [drawLayers, List.filter_cons, h, hv, hdec, drawLayer_fst, ihc]
        · simp [drawLayers, List.filter_cons, h, Bool.of_not_eq_true hv, ihc]

/-- Export does not read the selection; it depends on the background
source and the layer draw list only. -/
theorem handleDownload_congr (cp ca : Bool) (w h : ℝ) (decode : String → Option Image)
    (bg : Option String) (ls1 ls2 : List Layer) (sel1 sel2 : Option String)
    (hdl : drawLayers decode initialCtx ls1 = drawLayers decode initialCtx ls2) :
    handleDownload cp ca w h decode ⟨bg, ls1, sel1⟩
      = handleDownload cp ca w h decode ⟨bg, ls2, sel2⟩ := by
  simp only [handleDownload, hdl]

/-- Claim C8: when every layer carrying the targeted id is visible,
exporting after toggling the visibility of that id off produces the same
composite (same dimensions, same draw calls, same file) as exporting
after deleting it; and after the toggle the layer list still has the same
ids in the same order with every field other than visibility unchanged. -/
theorem toggle_off_export_eq_delete (st : EditorState) (i : String)
    (cp ca : Bool) (w h : ℝ) (decode : String → Option Image)
    (hvis : (st.layers.all fun l => (l.id != i) || l.visible) = true) :
    handleDownload cp ca w h decode (handleToggleVisibility i st)
      = handleDownload cp ca w h decode (handleDeleteLayer i st) ∧
    (handleToggleVisibility i st).layers.map (fun l => l.id) = st.layers.map (fun l => l.id) ∧
    (handleToggleVisibility i st).layers.map
        (fun l => (l.x, l.y, l.scale, l.rotation, l.width, l.height, l.src, l.name))
      = st.layers.map
        (fun l => (l.x, l.y, l.scale, l.rotation, l.width, l.height, l.src, l.name)) := by
  obtain ⟨bg, ls, sel⟩ := st
  simp only [List.all_eq_true, Bool.or_eq_true, bne_iff_ne, ne_eq, decide_eq_true_eq] at hvis
  have hvis' : ∀ l ∈ ls, l.id = i → l.visible = true := by
    intro l hl hid
    rcases hvis l hl with hne | hv
    · exact absurd hid hne
    · exact hv
  refine ⟨?_, ?_, ?_⟩
  · exact handleDownload_congr cp ca w h decode bg _ _ sel
      (if sel = some i then none else sel)
      (drawLayers_toggle_eq_delete decode i initialCtx ls hvis')
  · simp only [handleToggleVisibility]
    induction ls with
    | nil => rfl
    | cons a as ih =>
        by_cases h : a.id = i <;> simp_all [h]
  · simp only [handleToggleVisibility]
    induction ls with
    | nil => rfl
    | cons a as ih =>
        by_cases h : a.id = i <;> simp_all [h]

/-- Witness for C8 at a concrete state holding one visible layer. -/
theorem toggle_off_export_eq_delete_witness :
    (stw.layers.all fun l => (l.id != "a") || l.visible) = true ∧
    (handleDownload true true 800 600 decw (handleToggleVisibility "a" stw)
        = handleDownload true true 800 600 decw (handleDeleteLayer "a" stw) ∧
      (handleToggleVisibility "a" stw).layers.map (fun l => l.id)
        = stw.layers.map (fun l => l.id) ∧
      (handleToggleVisibility "a" stw).layers.map
          (fun l => (l.x, l.y, l.scale, l.rotation, l.width, l.height, l.src, l.name))
        = stw.layers.map
          (fun l => (l.x, l.y, l.scale, l.rotation, l.width, l.height, l.src, l.name))) :=
  ⟨rfl, toggle_off_export_eq_delete stw "a" true true 800 600 decw rfl⟩

/-! ## C1: export transform pipeline -/

/-- When every image decodes, the export loop draws exactly the visible
layers in list order, each from a fresh context, and leaves the context
as it found it. -/
theorem drawLayers_total (decodeT : String → Image) (c : Ctx) (ls : List Layer) :
    drawLayers (fun s => some (decodeT s)) c ls
      = (c, (ls.filter fun l => l.visible).map fun l => (drawLayer c l (decodeT l.src)).2) := by
  induction ls generalizing c with
  | nil => rfl
  | cons a as ih =>
      by_cases hv : a.visible = true
      · simp [drawLayers, List.filter_cons, hv, drawLayer_fst, ih]
      · simp [drawLayers, List.filter_cons, Bool.of_not_eq_true hv, ih]

/-- Claim C1: the export routine processes layers in ascending list
order, skips invisible layers, applies to each exactly the
translate-to-center, rotate, scale, draw-centered sequence starting from
the identity transform (the save/restore pair keeps transforms from
accumulating across layers, so the final context equals the initial one),
and the resulting world position of every content point equals the
live-preview convention (left = x, top = y, rotate then scale about the
element center). -/
theorem export_transform_matches_preview (layers : List Layer) (decodeT : String → Image) :
    drawLayers (fun s => some (decodeT s)) initialCtx layers
      = (initialCtx,
          (layers.filter fun l => l.visible).map
            fun l => (drawLayer initialCtx l (decodeT l.src)).2) ∧
    (∀ (l : Layer) (img : Image) (p : Point),
      ((drawLayer initialCtx l img).2).worldPoint p = previewPoint l p) := by
  refine ⟨drawLayers_total decodeT initialCtx layers, ?_⟩
  intro l img p
  simp only [drawLayer, DrawOp.worldPoint, Ctx.compose, Ctx.save, initialCtx, previewPoint,
    translateT, rotateT, scaleT, Function.comp_apply, id_eq]
  rw [Prod.ext_iff]
  constructor <;> dsimp <;> ring

/-! ## C10: export error handling -/

/-- A layer whose source fails to decode contributes nothing to the
export loop: the draw list is the one obtained with the layer removed. -/
theorem drawLayers_decode_failure (decode : String → Option Image) (c : Ctx)
    (pre post : List Layer) (bad : Layer) (hbad : decode bad.src = none) :
    drawLayers decode c (pre ++ bad :: post) = drawLayers decode c (pre ++ post) := by
  induction pre generalizing c with
  | nil =>
      by_cases hv : bad.visible = true
      · simp [drawLayers, hv, hbad]
      · simp [drawLayers, Bool.of_not_eq_true hv]
  | cons a as ih =>
      by_cases hv : a.visible = true
      · cases hdec : decode a.src with
        | none => simp [drawLayers, hv, hdec, ih]
        | some img => simp [drawLayers, hv, hdec, drawLayer_fst, ih]
      · simp [drawLayers, Bool.of_not_eq_true hv, ih]

/-- Claim C10: with no background source, no canvas element or no drawing
context the export is a no-op producing no file; a decode failure of the source
image of one layer removes only the contribution of that layer, the other layers
are still composited identically; and when the preconditions hold and the
background decodes, the download is still produced despite the failing
layer. -/
theorem export_error_isolation (cp ca : Bool) (w h : ℝ) (decode : String → Option Image)
    (st : EditorState) (pre post : List Layer) (bad : Layer)
    (hbad : decode bad.src = none) :
    (st.backgroundSrc = none → handleDownload cp ca w h decode st = none) ∧
    (cp = false → handleDownload cp ca w h decode st = none) ∧
    (ca = false → handleDownload cp ca w h decode st = none) ∧
    handleDownload cp ca w h decode { st with layers := pre ++ bad :: post }
      = handleDownload cp ca w h decode { st with layers := pre ++ post } ∧
    (∀ s bg, st.backgroundSrc = some s → decode s = some bg →
      (handleDownload true true w h decode { st with layers := pre ++ bad :: post }).isSome
        = true) := by
  refine ⟨?_, ?_, ?_, ?_, ?_⟩
  · intro hbg
    simp [handleDownload, hbg]
  · intro hcp
    simp [handleDownload, hcp]
  · intro hca
    subst hca
    simp only [handleDownload]
    split
    · rfl
    · simp
  · exact handleDownload_congr cp ca w h decode st.backgroundSrc _ _
      st.selectedLayerId st.selectedLayerId
      (drawLayers_decode_failure decode initialCtx pre post bad hbad)
  · intro s bg hbg hdec
    simp [handleDownload, hbg, hdec]

/-- Witness for C10 at a concrete state, one failing and one succeeding
layer. -/
theorem export_error_isolation_witness :
    decw10 lbad.src = none ∧
    ((stw.backgroundSrc = none → handleDownload true true 800 600 decw10 stw = none) ∧
      (true = false → handleDownload true true 800 600 decw10 stw = none) ∧
      (true = false → handleDownload true true 800 600 decw10 stw = none) ∧
      handleDownload true true 800 600 decw10 { stw with layers := [] ++ lbad :: [lw] }
        = handleDownload true true 800 600 decw10 { stw with layers := [] ++ [lw] } ∧
      (∀ s bg, stw.backgroundSrc = some s → decw10 s = some bg →
        (handleDownload true true 800 600 decw10
            { stw with layers := [] ++ lbad :: [lw] }).isSome = true)) :=
  ⟨rfl, export_error_isolation true true 800 600 decw10 stw [] [lw] lbad rfl⟩

/-! ## C2: resize pivot invariance -/

/-- Claim C2: for every resize gesture and every accepted pointer-move
update, recomputing the pivot world position from the updated x, y and
scale (rotation, width and height unchanged) with the very pivot formula
used at gesture start yields exactly the pivot recorded at gesture start;
the pivot is a world-space invariant of every accepted resize update,
including those on which the 0.05 scale floor engages (the proof never
inspects the emitted scale value). -/
theorem resize_pivot_invariant (l : Layer) (hnd : ResizeHandle) (mx my cx cy : ℝ)
    (sel : String) (upd : LayerUpdate) (hscale : l.scale ≠ 0)
    (hm : handlePointerMove (some (handlePointerDown l .resize (some hnd) mx my)) (some sel) cx cy
        = some (sel, upd)) :
    (handlePointerDown l .resize (some hnd) mx my).pivotWorld
      = some (computePivotWorld l hnd) ∧
    computePivotWorld (applyUpdate upd l) hnd = computePivotWorld l hnd := by
  refine ⟨rfl, ?_⟩
  simp only [handlePointerMove, handlePointerDown, computePivotWorld] at hm
  split at hm
  · exact absurd hm (by simp)
  · split at hm
    · exact absurd hm (by simp)
    · rw [Option.some.injEq, Prod.mk.injEq] at hm
      obtain ⟨-, rfl⟩ := hm
      simp only [computePivotWorld, applyUpdate, Option.getD_some, Option.getD_none]
      generalize (pivotLocal hnd l.width l.height) = P
      generalize Real.cos (toRad l.rotation) = cR
      generalize Real.sin (toRad l.rotation) = sR
      generalize max (0.05 : ℝ) _ = nS
      rw [Prod.ext_iff]
      constructor <;> (dsimp; field_simp; ring)

/-- Witness for C2: a concrete accepted resize update on `lw` whose
recomputed pivot equals the recorded one. -/
theorem resize_pivot_invariant_witness :
    lw.scale ≠ 0 ∧
    handlePointerMove (some (handlePointerDown lw .resize (some .se) 3 4)) (some "a") 6 8
      = some ("a", updw) ∧
    ((handlePointerDown lw .resize (some .se) 3 4).pivotWorld
        = some (computePivotWorld lw .se) ∧
      computePivotWorld (applyUpdate updw lw) .se = computePivotWorld lw .se) := by
  have hs1 : lw.scale ≠ 0 := by norm_num [lw]
  have h25 : Real.sqrt (((3 : ℝ) - 0) ^ 2 + ((4 : ℝ) - 0) ^ 2) = 5 := by
    rw [show ((3 : ℝ) - 0) ^ 2 + ((4 : ℝ) - 0) ^ 2 = 5 ^ 2 by norm_num]
    exact Real.sqrt_sq (by norm_num)
  have h100 : Real.sqrt (((6 : ℝ) - 0) ^ 2 + ((8 : ℝ) - 0) ^ 2) = 10 := by
    rw [show ((6 : ℝ) - 0) ^ 2 + ((8 : ℝ) - 0) ^ 2 = 10 ^ 2 by norm_num]
    exact Real.sqrt_sq (by norm_num)
  have hmv : handlePointerMove (some (handlePointerDown lw .resize (some .se) 3 4))
      (some "a") 6 8 = some ("a", updw) := by
    have hs25 : Real.sqrt 25 = 5 := by
      rw [show (25 : ℝ) = 5 ^ 2 by norm_num]
      exact Real.sqrt_sq (by norm_num)
    have hs100 : Real.sqrt 100 = 10 := by
      rw [show (100 : ℝ) = 10 ^ 2 by norm_num]
      exact Real.sqrt_sq (by norm_num)
    have hq : (1 : ℝ) / 20 ⊔ Real.sqrt 100 / Real.sqrt 25 = 2 := by
      rw [hs100, hs25, show (10 : ℝ) / 5 = 2 by norm_num]
      exact max_eq_right (by norm_num)
    simp only [handlePointerMove, handlePointerDown, computePivotWorld, pivotLocal, lw, toRad,
      hypot, updw]
    norm_num [h25, h100]
    constructor
    · rw [hq]
      norm_num
    · exact hq
  exact ⟨hs1, hmv, resize_pivot_invariant lw .se 3 4 6 8 "a" updw hs1 hmv⟩

/-! ## C3: rotate gesture -/

/-- Rotating a nonzero vector by θ and scaling it by any positive factor
moves its atan2 angle to θ plus the original angle, as long as that sum
stays in the principal interval. -/
theorem atan2_rotate (x y θ d : ℝ) (hne : ¬(x = 0 ∧ y = 0)) (hd : 0 < d)
    (hθ : θ + atan2 y x ∈ Set.Ioc (-Real.pi) Real.pi) :
    atan2 (d * (rotateT θ (x, y)).2) (d * (rotateT θ (x, y)).1) = θ + atan2 y x := by
  have hz0 : ((x : ℂ) + (y : ℂ) * Complex.I) ≠ 0 := by
    intro hc
    apply hne
    constructor
    · have h := congrArg Complex.re hc
      simpa using h
    · have h := congrArg Complex.im hc
      simpa using h
  have habs : 0 < Complex.abs ((x : ℂ) + (y : ℂ) * Complex.I) := Complex.abs.pos hz0
  have hcos : Real.cos (atan2 y x) = x / Complex.abs ((x : ℂ) + (y : ℂ) * Complex.I) := by
    rw [show atan2 y x = Complex.arg ((x : ℂ) + (y : ℂ) * Complex.I) from rfl,
      Complex.cos_arg hz0]
    simp
  have hsin : Real.sin (atan2 y x) = y / Complex.abs ((x : ℂ) + (y : ℂ) * Complex.I) := by
    rw [show atan2 y x = Complex.arg ((x : ℂ) + (y : ℂ) * Complex.I) from rfl,
      Complex.sin_arg]
    simp
  have hA0 : Complex.abs ((x : ℂ) + (y : ℂ) * Complex.I) ≠ 0 := ne_of_gt habs
  generalize hA : Complex.abs ((x : ℂ) + (y : ℂ) * Complex.I) = A at habs hcos hsin hA0
  generalize hal : atan2 y x = α at hθ hcos hsin ⊢
  have hx : x = A * Real.cos α := by
    rw [hcos]
    field_simp
  have hy : y = A * Real.sin α := by
    rw [hsin]
    field_simp
  have h1 : d * (rotateT θ (x, y)).1 = (d * A) * Real.cos (θ + α) := by
    simp only [rotateT]
    rw [Real.cos_add, hx, hy]
    ring
  have h2 : d * (rotateT θ (x, y)).2 = (d * A) * Real.sin (θ + α) := by
    simp only [rotateT]
    rw [Real.sin_add, hx, hy]
    ring
  rw [h1, h2]
  exact atan2_polar _ _ (mul_pos hd habs) hθ

/-- Counterexample to C3 as stated: on the layer `lc` (visual center at
the origin, rotation 0) a rotate gesture starting with the pointer at
(-1, 0) and moving it to (0, -1) — exactly a rotation by π/2, i.e. 90
degrees, about the start center — emits rotation -270, not 90, because
atan2 jumps across its branch cut: the stored rotation changes by
θ - 360, not θ. -/
theorem rotate_gesture_branch_cut_cex :
    rotateT (Real.pi / 2) ((-1 : ℝ) - (lc.x + lc.width / 2), (0 : ℝ) - (lc.y + lc.height / 2))
      = (0, -1) ∧
    handlePointerMove (some (handlePointerDown lc .rotate none (-1) 0)) (some "a") 0 (-1)
      = some ("a", { rotation := some (-270) }) ∧
    Real.pi / 2 * 180 / Real.pi = 90 ∧
    (-270 : ℝ) ≠ 90 := by
  have hπ := Real.pi_pos
  have ha1 : atan2 0 (-1) = Real.pi := by
    have h := atan2_polar 1 Real.pi one_pos (Set.mem_Ioc.mpr ⟨by linarith, le_refl _⟩)
    simpa using h
  have ha2 : atan2 (-1) 0 = -(Real.pi / 2) := by
    have h := atan2_polar 1 (-(Real.pi / 2)) one_pos
      (Set.mem_Ioc.mpr ⟨by linarith, by linarith⟩)
    simpa using h
  refine ⟨?_, ?_, ?_, by norm_num⟩
  · norm_num [rotateT, lc, Real.cos_pi_div_two, Real.sin_pi_div_two]
  · simp only [handlePointerMove, handlePointerDown, lc]
    norm_num [ha1, ha2]
    field_simp
    ring
  · field_simp
    ring

/-- Claim C3 as amended: each rotate pointer-move sets rotation to the
snapshot rotation plus (atan2 about the start center minus the start
angle) * 180/π, touching no other field and applying no clamping; rotating
the pointer by θ radians about the start center — at any positive distance
factor d from the center, so the change is independent of pointer distance
— changes rotation by exactly θ * 180/π degrees, provided θ plus the start
angle stays in the principal interval of atan2 (-π, π]; across the branch cut
the stored rotation differs from that by 360 degrees (see the
counterexample), which renders identically. -/
theorem rotate_gesture_amended (l : Layer) (sel : String) (sx sy θ d : ℝ)
    (hne : ¬(sx - (l.x + l.width / 2) = 0 ∧ sy - (l.y + l.height / 2) = 0))
    (hd : 0 < d)
    (hθ : θ + atan2 (sy - (l.y + l.height / 2)) (sx - (l.x + l.width / 2))
        ∈ Set.Ioc (-Real.pi) Real.pi) :
    (∀ cX cY : ℝ,
      handlePointerMove (some (handlePointerDown l .rotate none sx sy)) (some sel) cX cY
        = some (sel, { rotation := some (l.rotation
            + (atan2 (cY - (l.y + l.height / 2)) (cX - (l.x + l.width / 2))
                - atan2 (sy - (l.y + l.height / 2)) (sx - (l.x + l.width / 2)))
              * 180 / Real.pi) })) ∧
    handlePointerMove (some (handlePointerDown l .rotate none sx sy)) (some sel)
        ((l.x + l.width / 2)
          + d * (rotateT θ (sx - (l.x + l.width / 2), sy - (l.y + l.height / 2))).1)
        ((l.y + l.height / 2)
          + d * (rotateT θ (sx - (l.x + l.width / 2), sy - (l.y + l.height / 2))).2)
      = some (sel, { rotation := some (l.rotation + θ * 180 / Real.pi) }) := by
  refine ⟨fun cX cY => rfl, ?_⟩
  have key := atan2_rotate (sx - (l.x + l.width / 2)) (sy - (l.y + l.height / 2)) θ d hne hd hθ
  simp only [handlePointerMove, handlePointerDown]
  have e1 : (l.x + l.width / 2)
      + d * (rotateT θ (sx - (l.x + l.width / 2), sy - (l.y + l.height / 2))).1
      - (l.x + l.width / 2)
      = d * (rotateT θ (sx - (l.x + l.width / 2), sy - (l.y + l.height / 2))).1 := by ring
  have e2 : (l.y + l.height / 2)
      + d * (rotateT θ (sx - (l.x + l.width / 2), sy - (l.y + l.height / 2))).2
      - (l.y + l.height / 2)
      = d * (rotateT θ (sx - (l.x + l.width / 2), sy - (l.y + l.height / 2))).2 := by ring
  rw [e1, e2, key]
  have e3 : (θ + atan2 (sy - (l.y + l.height / 2)) (sx - (l.x + l.width / 2))
        - atan2 (sy - (l.y + l.height / 2)) (sx - (l.x + l.width / 2))) * 180 / Real.pi
      = θ * 180 / Real.pi := by ring
  rw [e3]

/-- Witness for the amended C3: a 90-degree pointer rotation at distance
factor 2 on the concrete layer `lc`. -/
theorem rotate_gesture_amended_witness :
    (¬((1 : ℝ) - (lc.x + lc.width / 2) = 0 ∧ (0 : ℝ) - (lc.y + lc.height / 2) = 0)) ∧
    (0 : ℝ) < 2 ∧
    (Real.pi / 2 + atan2 ((0 : ℝ) - (lc.y + lc.height / 2)) ((1 : ℝ) - (lc.x + lc.width / 2))
        ∈ Set.Ioc (-Real.pi) Real.pi) ∧
    ((∀ cX cY : ℝ,
        handlePointerMove (some (handlePointerDown lc .rotate none 1 0)) (some "a") cX cY
          = some ("a", { rotation := some (lc.rotation
              + (atan2 (cY - (lc.y + lc.height / 2)) (cX - (lc.x + lc.width / 2))
                  - atan2 ((0 : ℝ) - (lc.y + lc.height / 2)) ((1 : ℝ) - (lc.x + lc.width / 2)))
                * 180 / Real.pi) })) ∧
      handlePointerMove (some (handlePointerDown lc .rotate none 1 0)) (some "a")
        ((lc.x + lc.width / 2)
          + 2 * (rotateT (Real.pi / 2) (1 - (lc.x + lc.width / 2), 0 - (lc.y + lc.height / 2))).1)
        ((lc.y + lc.height / 2)
          + 2 * (rotateT (Real.pi / 2) (1 - (lc.x + lc.width / 2), 0 - (lc.y + lc.height / 2))).2)
      = some ("a", { rotation := some (lc.rotation + Real.pi / 2 * 180 / Real.pi) })) := by
  have hπ := Real.pi_pos
  have hne : ¬((1 : ℝ) - (lc.x + lc.width / 2) = 0 ∧ (0 : ℝ) - (lc.y + lc.height / 2) = 0) := by
    norm_num [lc]
  have h01 : atan2 0 1 = 0 := by
    have h := atan2_polar 1 0 one_pos (Set.mem_Ioc.mpr ⟨by linarith, le_of_lt hπ⟩)
    simpa using h
  have hθw : Real.pi / 2
      + atan2 ((0 : ℝ) - (lc.y + lc.height / 2)) ((1 : ℝ) - (lc.x + lc.width / 2))
      ∈ Set.Ioc (-Real.pi) Real.pi := by
    have e1 : ((0 : ℝ) - (lc.y + lc.height / 2)) = 0 := by norm_num [lc]
    have e2 : ((1 : ℝ) - (lc.x + lc.width / 2)) = 1 := by norm_num [lc]
    rw [e1, e2, h01, Set.mem_Ioc]
    constructor <;> linarith
  exact ⟨hne, by norm_num, hθw,
    rotate_gesture_amended lc "a" 1 0 (Real.pi / 2) 2 hne (by norm_num) hθw⟩

/-! ## C4: the documented scenario -/

/-- Counterexample to C4 as stated: after the rotate gesture has set the
rotation of the scenario layer to 45 degrees, a resize gesture from the se
handle records its pivot at the rotated nw corner
(150 - 25√2, 100 - 75√2), which is not the world position (50, 50) the
claim asserts (the pivot offset is rotated by the rotation of the layer). -/
theorem scenario_cex :
    handlePointerMove (some (handlePointerDown L0 .rotate none 200 100)) (some "L") 200 150
      = some ("L", { rotation := some 45 }) ∧
    applyUpdate { rotation := some 45 } L0 = { L0 with rotation := 45 } ∧
    (handlePointerDown { L0 with rotation := 45 } .resize (some .se) 250 150).pivotWorld
      = some (150 - 25 * Real.sqrt 2, 100 - 75 * Real.sqrt 2) ∧
    (150 - 25 * Real.sqrt 2, 100 - 75 * Real.sqrt 2) ≠ ((50 : ℝ), (50 : ℝ)) := by
  have hπ := Real.pi_pos
  have hss : Real.sqrt 2 * Real.sqrt 2 = 2 := Real.mul_self_sqrt (by norm_num)
  have a0 : atan2 0 50 = 0 := by
    have h := atan2_polar 50 0 (by norm_num) (Set.mem_Ioc.mpr ⟨by linarith, le_of_lt hπ⟩)
    simpa using h
  have a45 : atan2 50 50 = Real.pi / 4 := by
    have hr : (0 : ℝ) < 50 * Real.sqrt 2 := by positivity
    have h := atan2_polar (50 * Real.sqrt 2) (Real.pi / 4) hr
      (Set.mem_Ioc.mpr ⟨by linarith, by linarith⟩)
    rw [Real.sin_pi_div_four, Real.cos_pi_div_four] at h
    have e : (50 : ℝ) * Real.sqrt 2 * (Real.sqrt 2 / 2) = 50 := by
      linear_combination 25 * hss
    rw [e] at h
    exact h
  refine ⟨?_, rfl, ?_, ?_⟩
  · simp only [handlePointerMove, handlePointerDown, L0]
    norm_num [a0, a45]
    field_simp
    ring
  · simp only [handlePointerDown, computePivotWorld, pivotLocal, toRad, L0]
    rw [show (45 : ℝ) * Real.pi / 180 = Real.pi / 4 by ring,
      Real.cos_pi_div_four, Real.sin_pi_div_four]
    norm_num
    constructor <;> ring
  · simp only [ne_eq, Prod.mk.injEq, not_and]
    intro h1
    have h4 : Real.sqrt 2 = 4 := by linarith
    rw [h4] at hss
    norm_num at hss

/-- Claim C4 as amended: on the scenario layer (800 by 600 background,
layer 200 by 100 at (50,50), scale 1, rotation 0, visual center
(150,100)) the rotate gesture moving the pointer from angle atan2(0,50)
to atan2(50,50) about that center emits rotation +45 and leaves x and y
untouched; and a resize gesture from the se handle applied to the layer
in its initial unrotated state (not to the already-rotated layer, which
is what the counterexample rules out) fixes its pivot at the nw corner
(50,50), doubling the pivot-to-pointer distance sets scale 2.0, and the
recomputed x, y keep (50,50) fixed as the unrotated pivot corner. -/
theorem scenario_amended :
    handlePointerMove (some (handlePointerDown L0 .rotate none 200 100)) (some "L") 200 150
      = some ("L", { rotation := some 45 }) ∧
    applyUpdate { rotation := some 45 } L0 = { L0 with rotation := 45 } ∧
    (handlePointerDown L0 .resize (some .se) 250 150).pivotWorld = some ((50 : ℝ), (50 : ℝ)) ∧
    (handlePointerDown L0 .resize (some .se) 250 150).startDist
      = some (Real.sqrt 50000) ∧
    handlePointerMove (some (handlePointerDown L0 .resize (some .se) 250 150)) (some "L") 450 250
      = some ("L", { x := some 150, y := some 100, scale := some 2 }) ∧
    computePivotWorld (applyUpdate { x := some 150, y := some 100, scale := some 2 } L0) .se
      = ((50 : ℝ), (50 : ℝ)) := by
  have hπ := Real.pi_pos
  have a0 : atan2 0 50 = 0 := by
    have h := atan2_polar 50 0 (by norm_num) (Set.mem_Ioc.mpr ⟨by linarith, le_of_lt hπ⟩)
    simpa using h
  have a45 : atan2 50 50 = Real.pi / 4 := by
    have hss : Real.sqrt 2 * Real.sqrt 2 = 2 := Real.mul_self_sqrt (by norm_num)
    have hr : (0 : ℝ) < 50 * Real.sqrt 2 := by positivity
    have h := atan2_polar (50 * Real.sqrt 2) (Real.pi / 4) hr
      (Set.mem_Ioc.mpr ⟨by linarith, by linarith⟩)
    rw [Real.sin_pi_div_four, Real.cos_pi_div_four] at h
    have e : (50 : ℝ) * Real.sqrt 2 * (Real.sqrt 2 / 2) = 50 := by
      linear_combination 25 * hss
    rw [e] at h
    exact h
  have hpos : (0 : ℝ) < Real.sqrt 50000 := Real.sqrt_pos.mpr (by norm_num)
  have h1le : (1 : ℝ) ≤ Real.sqrt 50000 := by
    rw [show (1 : ℝ) = Real.sqrt 1 from Real.sqrt_one.symm]
    exact Real.sqrt_le_sqrt (by norm_num)
  have h2x : Real.sqrt 200000 = 2 * Real.sqrt 50000 := by
    rw [show (200000 : ℝ) = 4 * 50000 by norm_num,
      Real.sqrt_mul (by norm_num : (0 : ℝ) ≤ 4),
      show Real.sqrt 4 = 2 by
        rw [show (4 : ℝ) = 2 ^ 2 by norm_num]
        exact Real.sqrt_sq (by norm_num)]
  refine ⟨?_, rfl, ?_, ?_, ?_, ?_⟩
  · simp only [handlePointerMove, handlePointerDown, L0]
    norm_num [a0, a45]
    field_simp
    ring
  · simp only [handlePointerDown, computePivotWorld, pivotLocal, toRad, L0]
    norm_num
  · simp only [handlePointerDown, computePivotWorld, pivotLocal, toRad, hypot, L0]
    norm_num
  · have hsd0 : Real.sqrt 50000 ≠ 0 := ne_of_gt hpos
    have hnlt : ¬(2 * Real.sqrt 50000 < 1) := by linarith
    have hdiv : 2 * Real.sqrt 50000 / Real.sqrt 50000 = 2 := by field_simp
    have hmax : (1 : ℝ) / 20 ⊔ 2 = 2 := max_eq_right (by norm_num)
    have hmax2 : max (0.05 : ℝ) 2 = 2 := max_eq_right (by norm_num)
    simp only [handlePointerMove, handlePointerDown, computePivotWorld, pivotLocal,
      toRad, hypot, L0]
    norm_num [h2x, hsd0, hnlt, hdiv, hmax, hmax2]
  · simp only [computePivotWorld, applyUpdate, pivotLocal, toRad, L0]
    norm_num

end ImageCp

end
